import Mathlib

/-!
Verification of the graph query assistant backend.

The development shallowly embeds the pure request-handling logic of the
backend (`src/backend/`): the keyword intent classifier of
`Neo4jClient.natural_language_query`, the conversation-history window of
`OpenAIClient`, the retrieval filtering of `RAGEngine.retrieve_context`,
the `/chat` and `/graph/server/{id}` handlers of `app.py`, and the CSV
graph loader of `load_graph_data.py`.  External services (the Neo4j
database, the FAISS similarity search, the OpenAI completion API) are
modelled as explicit inputs: the embedding takes the data those services
would return as parameters and reproduces what the Python code does with
it.
-/

namespace GraphAssist

/-- Python `needle in hay` on lists of characters: `needle` occurs as a
contiguous substring of `hay`. -/
def listContainsSub (needle : List Char) : List Char → Bool
  | [] => needle.isEmpty
  | c :: t => needle.isPrefixOf (c :: t) || listContainsSub needle t

/-- Python `needle in hay` for strings (substring test on the character
sequences). -/
def containsSub (needle hay : String) : Bool :=
  listContainsSub needle.data hay.data

/-- Python `str.lower`: every character lower-cased (ASCII case mapping;
the queries and keywords involved are ASCII). -/
def pyLower (s : String) : String :=
  String.mk (s.data.map Char.toLower)

/-- Python `str.capitalize`: first character upper-cased, the rest
lower-cased. -/
def pyCapitalize (s : String) : String :=
  match s.data with
  | [] => ""
  | c :: cs => String.mk (c.toUpper :: cs.map Char.toLower)

/-- Maximal leading run of decimal digits: the greedy `\d+` part of the
patterns `loc\d+` and `server\d+` (ASCII digits). -/
def takeDigits : List Char → List Char
  | [] => []
  | c :: cs => if c.isDigit then c :: takeDigits cs else []

/-- Try to match, at the current position, the literal `pat` followed by at
least one digit; return the matched digits on success. -/
def matchLitDigits : List Char → List Char → Option (List Char)
  | [], rest =>
    let d := takeDigits rest
    if d.isEmpty then none else some d
  | _ :: _, [] => none
  | p :: ps, c :: cs => if p == c then matchLitDigits ps cs else none

/-- Python `re.search` specialised to the patterns `loc\d+` and
`server\d+`: scan left to right and return the text of the leftmost match
(literal followed by a maximal non-empty digit run). -/
def reSearchLitDigits (pat : List Char) : List Char → Option String
  | [] => none
  | c :: cs =>
    match matchLitDigits pat (c :: cs) with
    | some ds => some (String.mk (pat ++ ds))
    | none => reSearchLitDigits pat cs

/-- The intents `natural_language_query` can choose, together with the
parameter each one passes to its fixed Cypher query. -/
inductive Intent where
  | list_servers
  | list_applications
  | query_by_os (osName : String)
  | query_by_location (locationId : String)
  | server_details (serverId : String)
  | general_info
deriving DecidableEq, Repr

/-- The OS keyword extraction list of `natural_language_query`
(`neo4j_client.py` line 149). -/
def osKeywords : List String := ["ubuntu", "windows", "centos", "linux", "rhel"]

/-- Intent selection of `Neo4jClient.natural_language_query`
(`src/backend/neo4j_client.py` lines 118-195).  The source lower-cases the
query and walks an if/elif chain; each branch then runs a fixed Cypher
query against the external database, so the embedding records which branch
(intent) is taken and with which parameter.  Note the third guard (line
147) tests only ubuntu/windows/centos/linux, while the extraction list
`osKeywords` also holds rhel. -/
def naturalLanguageQuery (userQuery : String) : Intent :=
  let q := pyLower userQuery
  if containsSub "server" q &&
      (["list", "show", "all", "what"].any fun w => containsSub w q) then
    .list_servers
  else if containsSub "application" q &&
      (["list", "show", "all"].any fun w => containsSub w q) then
    .list_applications
  else if containsSub "ubuntu" q || containsSub "windows" q ||
      containsSub "centos" q || containsSub "linux" q then
    .query_by_os (pyCapitalize ((osKeywords.find? fun w => containsSub w q).getD ""))
  else if containsSub "location" q || containsSub "loc" q then
    match reSearchLitDigits "loc".data q.data with
    | some locationId => .query_by_location locationId
    | none =>
      match reSearchLitDigits "server".data q.data with
      | some serverId => .server_details serverId
      | none => .general_info
  else
    match reSearchLitDigits "server".data q.data with
    | some serverId => .server_details serverId
    | none => .general_info

/-- C1: the intent classifier is deterministic on the spec's example inputs
("list all servers" selects list_servers, "show all applications" selects
list_applications, "apps on ubuntu" selects query_by_os with OS filter
"Ubuntu", "servers in loc3" selects query_by_location with id "loc3",
"details for server42" selects server_details for "server42"), and any
input matching none of the classifier's rules yields general_info. -/
theorem natural_language_query_examples :
    naturalLanguageQuery "list all servers" = Intent.list_servers ∧
    naturalLanguageQuery "show all applications" = Intent.list_applications ∧
    naturalLanguageQuery "apps on ubuntu" = Intent.query_by_os "Ubuntu" ∧
    naturalLanguageQuery "servers in loc3" = Intent.query_by_location "loc3" ∧
    naturalLanguageQuery "details for server42" = Intent.server_details "server42" ∧
    ∀ q : String,
      (containsSub "server" (pyLower q) &&
        (["list", "show", "all", "what"].any fun w => containsSub w (pyLower q))) = false →
      (containsSub "application" (pyLower q) &&
        (["list", "show", "all"].any fun w => containsSub w (pyLower q))) = false →
      (containsSub "ubuntu" (pyLower q) || containsSub "windows" (pyLower q) ||
        containsSub "centos" (pyLower q) || containsSub "linux" (pyLower q)) = false →
      reSearchLitDigits "loc".data (pyLower q).data = none →
      reSearchLitDigits "server".data (pyLower q).data = none →
      naturalLanguageQuery q = Intent.general_info := by
  refine ⟨by decide, by decide, by decide, by decide, by decide, ?_⟩
  intro q h1 h2 h3 h4 h5
  unfold naturalLanguageQuery
  simp only [h1, h2, h3, h4, h5, Bool.false_eq_true, if_false, ite_self]

/-- Witness for C1: the general-info fallback evaluated at the concrete
input "hello", whose lower-casing matches none of the rules. -/
theorem natural_language_query_examples_witness :
    naturalLanguageQuery "hello" = Intent.general_info :=
  natural_language_query_examples.2.2.2.2.2 "hello" (by decide) (by decide)
    (by decide) (by decide) (by decide)

/-- C3 counterexample: "apps on rhel" contains the OS keyword "rhel" and
matches neither the server-listing nor the application-listing rule, yet
the classifier does not choose query_by_os (the guard at
`neo4j_client.py` line 147 omits rhel): it falls through to general_info. -/
theorem os_keyword_rhel_counterexample :
    containsSub "rhel" (pyLower "apps on rhel") = true ∧
    (containsSub "server" (pyLower "apps on rhel") &&
      (["list", "show", "all", "what"].any fun w =>
        containsSub w (pyLower "apps on rhel"))) = false ∧
    (containsSub "application" (pyLower "apps on rhel") &&
      (["list", "show", "all"].any fun w =>
        containsSub w (pyLower "apps on rhel"))) = false ∧
    naturalLanguageQuery "apps on rhel" = Intent.general_info ∧
    naturalLanguageQuery "apps on rhel" ≠ Intent.query_by_os "Rhel" := by
  refine ⟨by decide, by decide, by decide, by decide, by decide⟩

/-- C3 (amended): for every input whose lower-casing contains one of the
guard keywords ubuntu, windows, centos or linux (rhel alone does not fire
the branch), and which matches neither the server-listing nor the
application-listing rule, the classifier returns query_by_os with the
first keyword of the extraction list [ubuntu, windows, centos, linux,
rhel] contained in the lower-cased input, capitalized, as the OS filter. -/
theorem query_by_os_first_match (q : String)
    (h1 : (containsSub "server" (pyLower q) &&
      (["list", "show", "all", "what"].any fun w => containsSub w (pyLower q))) = false)
    (h2 : (containsSub "application" (pyLower q) &&
      (["list", "show", "all"].any fun w => containsSub w (pyLower q))) = false)
    (h3 : (containsSub "ubuntu" (pyLower q) || containsSub "windows" (pyLower q) ||
      containsSub "centos" (pyLower q) || containsSub "linux" (pyLower q)) = true) :
    naturalLanguageQuery q =
      Intent.query_by_os
        (pyCapitalize ((osKeywords.find? fun w => containsSub w (pyLower q)).getD "")) := by
  unfold naturalLanguageQuery
  simp only [h1, h2, h3, Bool.false_eq_true, if_false, if_true]

/-- Witness for C3's amended theorem at the concrete input
"apps on ubuntu". -/
theorem query_by_os_first_match_witness :
    naturalLanguageQuery "apps on ubuntu" = Intent.query_by_os "Ubuntu" :=
  (query_by_os_first_match "apps on ubuntu" (by decide) (by decide) (by decide)).trans
    (by decide)

/-- A chat message as stored by `OpenAIClient`: a role tag ("system",
"user" or "assistant") and its content. -/
structure Msg where
  role : String
  content : String
deriving DecidableEq, Repr

/-- `OpenAIClient._update_conversation_history` acting on one
conversation's history (`openai_client.py` lines 146-176): append the
user/assistant pair, then keep only the last `max_messages = 20` entries
(Python `history[-20:]` when the length exceeds 20). -/
def updateConversationHistory (hist : List Msg) (userMessage aiMessage : String) :
    List Msg :=
  let h := hist ++ [⟨"user", userMessage⟩, ⟨"assistant", aiMessage⟩]
  if h.length > 20 then h.drop (h.length - 20) else h

/-- The stored history of one conversation after the given sequence of
successful chat turns (user message, assistant reply), starting from the
empty history a fresh conversation id gets. -/
def runConversation (turns : List (String × String)) : List Msg :=
  turns.foldl (fun h t => updateConversationHistory h t.1 t.2) []

/-- The messages a list of turns contributes to the history: a user
message followed by an assistant message for each turn, in order. -/
def pairsMsgs : List (String × String) → List Msg
  | [] => []
  | t :: ts => ⟨"user", t.1⟩ :: ⟨"assistant", t.2⟩ :: pairsMsgs ts

/-- The last `n` elements of a list (Python `l[-n:]`). -/
def lastN (n : Nat) (l : List α) : List α := l.drop (l.length - n)

/-- The history consists of complete user/assistant pairs: user then
assistant, repeated (this also forces the length to be even). -/
def alternatesUA : List Msg → Bool
  | [] => true
  | u :: a :: rest => u.role == "user" && a.role == "assistant" && alternatesUA rest
  | _ => false

theorem pairsMsgs_append (xs ys : List (String × String)) :
    pairsMsgs (xs ++ ys) = pairsMsgs xs ++ pairsMsgs ys := by
  induction xs with
  | nil => rfl
  | cons t ts ih => simp [pairsMsgs, ih]

theorem pairsMsgs_length (xs : List (String × String)) :
    (pairsMsgs xs).length = 2 * xs.length := by
  induction xs with
  | nil => rfl
  | cons t ts ih => simp [pairsMsgs, ih]; omega

theorem pairsMsgs_drop_two (xs : List (String × String)) :
    (pairsMsgs xs).drop 2 = pairsMsgs xs.tail := by
  cases xs <;> rfl

theorem alternatesUA_pairsMsgs (xs : List (String × String)) :
    alternatesUA (pairsMsgs xs) = true := by
  induction xs with
  | nil => rfl
  | cons t ts ih => simp [pairsMsgs, alternatesUA, ih]

theorem lastN_length (n : Nat) (l : List α) : (lastN n l).length = min n l.length := by
  simp only [lastN, List.length_drop]
  omega

theorem lastN_of_le {n : Nat} {l : List α} (h : l.length ≤ n) : lastN n l = l := by
  simp [lastN, Nat.sub_eq_zero_of_le h]

theorem updateConversationHistory_of_le (hist : List Msg) (u a : String)
    (h : hist.length + 2 ≤ 20) :
    updateConversationHistory hist u a =
      hist ++ [(⟨"user", u⟩ : Msg), ⟨"assistant", a⟩] := by
  have hc : ¬ ((hist ++ [(⟨"user", u⟩ : Msg), ⟨"assistant", a⟩]).length > 20) := by
    simp only [List.length_append, List.length_cons, List.length_nil]
    omega
  simp only [updateConversationHistory, if_neg hc]

theorem updateConversationHistory_of_gt (hist : List Msg) (u a : String)
    (h : hist.length + 2 > 20) :
    updateConversationHistory hist u a =
      (hist ++ [(⟨"user", u⟩ : Msg), ⟨"assistant", a⟩]).drop (hist.length + 2 - 20) := by
  have hlen : (hist ++ [(⟨"user", u⟩ : Msg), ⟨"assistant", a⟩]).length = hist.length + 2 := by
    simp
  simp only [updateConversationHistory, hlen]
  rw [if_pos h]

/-- One step of the window invariant: updating the history that holds the
last (at most) 10 turns with one more turn yields the history of the last
(at most) 10 turns of the extended turn list. -/
theorem updateConversationHistory_lastN (ps : List (String × String)) (u a : String) :
    updateConversationHistory (pairsMsgs (lastN 10 ps)) u a =
      pairsMsgs (lastN 10 (ps ++ [(u, a)])) := by
  have hpair : ∀ xs : List (String × String),
      pairsMsgs xs ++ [(⟨"user", u⟩ : Msg), ⟨"assistant", a⟩] = pairsMsgs (xs ++ [(u, a)]) := by
    intro xs
    rw [pairsMsgs_append]
    rfl
  have hlen : (pairsMsgs (lastN 10 ps)).length = 2 * min 10 ps.length := by
    rw [pairsMsgs_length, lastN_length]
  by_cases hle : ps.length ≤ 9
  · have h1 : lastN 10 ps = ps := lastN_of_le (by omega)
    have h2 : lastN 10 (ps ++ [(u, a)]) = ps ++ [(u, a)] := by
      refine lastN_of_le ?_
      simp only [List.length_append, List.length_cons, List.length_nil]
      omega
    rw [h1, h2, updateConversationHistory_of_le _ _ _ (by rw [pairsMsgs_length]; omega),
      hpair]
  · have h10 : (pairsMsgs (lastN 10 ps)).length = 20 := by omega
    rw [updateConversationHistory_of_gt _ _ _ (by omega), hpair, h10]
    have htail : (lastN 10 ps ++ [(u, a)]).tail = (lastN 10 ps).tail ++ [(u, a)] := by
      have hne : lastN 10 ps ≠ [] := by
        intro hnil
        rw [hnil] at h10
        simp [pairsMsgs] at h10
      cases hl : lastN 10 ps with
      | nil => exact absurd hl hne
      | cons x xs => simp
    have hdrop : (20 : Nat) + 2 - 20 = 2 := by omega
    rw [hdrop, pairsMsgs_drop_two, htail]
    congr 1
    have hlast : lastN 10 ps = ps.drop (ps.length - 10) := rfl
    have htail2 : (ps.drop (ps.length - 10)).tail = ps.drop (ps.length - 9) := by
      rw [← List.drop_one, List.drop_drop]
      congr 1
      omega
    rw [hlast, htail2]
    have : lastN 10 (ps ++ [(u, a)]) = (ps ++ [(u, a)]).drop (ps.length - 9) := by
      simp only [lastN, List.length_append, List.length_cons, List.length_nil]
      congr 1
    have hz : ps.length - 9 - ps.length = 0 := by omega
    rw [this, List.drop_append_eq_append_drop, hz, List.drop_zero]

/-- The stored history after any sequence of turns is exactly the
user/assistant pairs of the last at most 10 turns. -/
theorem runConversation_eq (turns : List (String × String)) :
    runConversation turns = pairsMsgs (lastN 10 turns) := by
  induction turns using List.reverseRecOn with
  | nil => rfl
  | append_singleton ps p ih =>
    have hstep : runConversation (ps ++ [p]) =
        updateConversationHistory (runConversation ps) p.1 p.2 := by
      simp [runConversation, List.foldl_append]
    rw [hstep, ih]
    exact updateConversationHistory_lastN ps p.1 p.2

/-- A chunk held by the vector store: its text and its metadata dictionary
(string keys and values cover the fields at issue; the sentinel chunk
carries the binding ("type", "system")). -/
structure Doc where
  page_content : String
  metadata : List (String × String)
deriving DecidableEq, Repr

/-- Python `dict.get`: the first binding of the key, if any. -/
def metaGet (m : List (String × String)) (k : String) : Option String :=
  (m.find? fun p => p.1 == k).map fun p => p.2

/-- One entry of the sources list `retrieve_context` returns
(`rag_engine.py` lines 173-178): position, 200-character preview, the
similarity score passed through from the search, and the metadata. -/
structure SourceEntry where
  source_id : Nat
  content : String
  score : Int
  metadata : List (String × String)
deriving DecidableEq, Repr

/-- The value `retrieve_context` returns: the concatenated context string
and the per-source entries. -/
structure RetrievalResult where
  context : String
  sources : List SourceEntry
deriving DecidableEq, Repr

/-- The sentinel filter of `retrieve_context` (`rag_engine.py` lines
158-161): keep a scored chunk unless its metadata type is "system". -/
def notSentinel (p : Doc × Int) : Bool :=
  metaGet p.1.metadata "type" != some "system"

/-- `RAGEngine.retrieve_context` (`rag_engine.py` lines 134-191) acting on
the outcome of the FAISS similarity search, which is external: the search
either raises (the `Except.error` case, absorbed by the handler at line
189) or returns scored chunks.  The scores are opaque values passed
through; the function filters out the sentinel "system" chunk, returns
empty context and sources when nothing remains, and otherwise renders the
numbered source blocks. -/
def retrieveContext (searchOutcome : Except String (List (Doc × Int))) :
    RetrievalResult :=
  match searchOutcome with
  | .error _ => ⟨"", []⟩
  | .ok results =>
    let results := results.filter notSentinel
    if results.isEmpty then ⟨"", []⟩
    else
      let contextParts := results.enum.map fun p =>
        "[Source " ++ toString (p.1 + 1) ++ "]\n" ++ p.2.1.page_content ++ "\n"
      let sources := results.enum.map fun p =>
        SourceEntry.mk (p.1 + 1) (String.mk (p.2.1.page_content.data.take 200) ++ "...")
          p.2.2 p.2.1.metadata
      ⟨String.intercalate "\n" contextParts, sources⟩

/-- The full `RAGEngine.retrieve_context` call including its first
statement: `self._ensure_initialized()` at `rag_engine.py` line 147 runs
OUTSIDE the try/except that begins at line 148, so a failure of the lazy
initialization (the embedding construction, the index creation via
`FAISS.from_documents`, or an `AttributeError` for a settings attribute
`config.py` never defines) propagates to the caller; only the guarded
body, `retrieveContext`, absorbs its errors. -/
def retrieveContextInit (initOutcome : Except String Unit)
    (searchOutcome : Except String (List (Doc × Int))) :
    Except String RetrievalResult :=
  match initOutcome with
  | .error e => .error e
  | .ok _ => .ok (retrieveContext searchOutcome)

/-- C4 counterexample: an internal error during retrieval is not always
absorbed: a failure of the lazy initialization step (here the
`AttributeError` raised because `config.py` defines no `embedding_model`
setting) happens outside the try/except and propagates instead of
returning the empty result. -/
theorem retrieve_context_init_failure_counterexample :
    retrieveContextInit (.error "AttributeError: embedding_model") (.ok []) =
      .error "AttributeError: embedding_model" ∧
    retrieveContextInit (.error "AttributeError: embedding_model") (.ok []) ≠
      .ok ⟨"", []⟩ :=
  ⟨rfl, fun h => Except.noConfusion h⟩

/-- C4 (amended): failures inside the guarded retrieval body are
absorbed: once initialization has succeeded, an internal error during the
search, or an empty result set after the sentinel filter, both yield
exactly the empty context with an empty sources list; a failure of the
lazy initialization step, which runs outside the try/except, propagates
to the caller instead. -/
theorem retrieve_context_absorbs_guarded_failure :
    (∀ e : String, retrieveContextInit (.ok ()) (.error e) = .ok ⟨"", []⟩) ∧
    (∀ results : List (Doc × Int),
      results.filter notSentinel = [] →
      retrieveContextInit (.ok ()) (.ok results) = .ok ⟨"", []⟩) ∧
    (∀ e : String,
      ∀ searchOutcome : Except String (List (Doc × Int)),
      retrieveContextInit (.error e) searchOutcome = .error e) := by
  refine ⟨fun e => rfl, fun results h => ?_, fun e searchOutcome => rfl⟩
  simp [retrieveContextInit, retrieveContext, h]

/-- Witness for C4's amended theorem: a failed search and a search that
returned only the sentinel chunk both evaluate to the empty result, while
a concrete initialization failure propagates. -/
theorem retrieve_context_absorbs_guarded_failure_witness :
    retrieveContextInit (.ok ()) (.error "boom") = .ok ⟨"", []⟩ ∧
    retrieveContextInit (.ok ())
      (.ok [(⟨"Initial setup document", [("type", "system")]⟩, 0)]) = .ok ⟨"", []⟩ ∧
    retrieveContextInit (.error "init failed") (.ok []) = .error "init failed" :=
  ⟨retrieve_context_absorbs_guarded_failure.1 "boom",
   retrieve_context_absorbs_guarded_failure.2.1 _ (by decide),
   retrieve_context_absorbs_guarded_failure.2.2 "init failed" (.ok [])⟩

/-- C5: the sentinel chunk never reaches the output: every returned source
has metadata type ≠ "system", and the whole result (context string
included) is unchanged when the sentinel chunks are removed from the
search results beforehand, so a sentinel nearest neighbour never
influences what is returned. -/
theorem retrieve_context_excludes_sentinel (results : List (Doc × Int)) :
    ((retrieveContext (.ok results)).sources.all fun s =>
      metaGet s.metadata "type" != some "system") = true ∧
    retrieveContext (.ok results) =
      retrieveContext (.ok (results.filter notSentinel)) := by
  have hidem : (results.filter notSentinel).filter notSentinel =
      results.filter notSentinel :=
    List.filter_eq_self.mpr fun a ha => List.of_mem_filter ha
  constructor
  · simp only [retrieveContext]
    by_cases hemp : (results.filter notSentinel).isEmpty
    · simp [hemp]
    · simp only [hemp, if_false, List.all_eq_true]
      intro s hs
      rcases List.mem_map.1 hs with ⟨p, hp, rfl⟩
      have hget := List.mem_enum_iff_getElem?.1 hp
      rw [List.getElem?_eq_some] at hget
      obtain ⟨hlt, hi⟩ := hget
      have hmem : p.2 ∈ results.filter notSentinel := hi ▸ List.getElem_mem hlt
      have := List.of_mem_filter hmem
      simpa [notSentinel] using this
  · simp only [retrieveContext, hidem]

/-- C2: after any number of successful chat turns on one conversation id,
the stored history is exactly the user/assistant pairs of the most recent
at most 10 turns in order (oldest evicted first), has length at most 20,
even length, and alternates user then assistant, so eviction never splits
a pair. -/
theorem conversation_history_window (turns : List (String × String)) :
    runConversation turns = pairsMsgs (lastN 10 turns) ∧
    (runConversation turns).length ≤ 20 ∧
    Even (runConversation turns).length ∧
    alternatesUA (runConversation turns) = true := by
  have h := runConversation_eq turns
  refine ⟨h, ?_, ?_, ?_⟩
  · rw [h, pairsMsgs_length, lastN_length]
    omega
  · rw [h, pairsMsgs_length]
    exact even_two_mul _
  · rw [h]
    exact alternatesUA_pairsMsgs _

/-- Python `store[cid]` lookup for the conversation store of
`OpenAIClient` (a dict from conversation id to message list, modelled as
an association list with unique keys). -/
def lookupStore : List (String × List Msg) → String → Option (List Msg)
  | [], _ => none
  | p :: ps, cid => if p.1 == cid then some p.2 else lookupStore ps cid

/-- Python `store[cid] = hist`: replace the binding of the id when
present, otherwise add a new binding. -/
def setStore : List (String × List Msg) → String → List Msg → List (String × List Msg)
  | [], cid, hist => [(cid, hist)]
  | p :: ps, cid, hist =>
    if p.1 == cid then (cid, hist) :: ps else p :: setStore ps cid hist

/-- `OpenAIClient._build_system_prompt` (`openai_client.py` lines 95-119):
the fixed persona preamble, plus a context block when `context` is
non-empty (Python string truthiness). -/
def buildSystemPrompt (context : String) : String :=
  let basePrompt := "You are a helpful AI assistant for BNP. You provide accurate,\nprofessional, and friendly responses to user queries."
  if context != "" then
    basePrompt ++ "\n\nYou have access to the following relevant information to help answer the user's question:\n\n" ++ context ++ "\n\nUse this information to provide accurate and contextual responses. If the information\nprovided is not relevant to the question, rely on your general knowledge. Always cite\nsources when using the provided information."
  else
    basePrompt

/-- `OpenAIClient._get_conversation_messages` (`openai_client.py` lines
121-144): the system prompt, then the stored history of the conversation
when the id is known, then the current user message. -/
def getConversationMessages (store : List (String × List Msg))
    (conversationId systemPrompt userMessage : String) : List Msg :=
  ⟨"system", systemPrompt⟩ ::
    ((lookupStore store conversationId).getD [] ++ [⟨"user", userMessage⟩])

/-- `OpenAIClient._update_conversation_history` on the whole store
(`openai_client.py` lines 146-176): an unknown id starts from the empty
history; the user/assistant pair is appended and the window trimmed. -/
def updateStoreHistory (store : List (String × List Msg))
    (conversationId userMessage aiMessage : String) : List (String × List Msg) :=
  setStore store conversationId
    (updateConversationHistory ((lookupStore store conversationId).getD [])
      userMessage aiMessage)

/-- What one `generate_response` call produces: the message list sent to
the completion API, the conversation id and reply returned to the caller,
and the updated store. -/
structure GenOutcome where
  messagesSent : List Msg
  conversationId : String
  response : String
  store : List (String × List Msg)
deriving Repr

/-- `OpenAIClient.generate_response` (`openai_client.py` lines 29-93).
The external OpenAI completion is modelled by the `aiMessage` parameter
(the reply the API returns on success); `freshId` models the
`uuid.uuid4()` value generated when no conversation id is supplied. -/
def generateResponse (store : List (String × List Msg))
    (freshId userMessage context : String) (conversationId : Option String)
    (aiMessage : String) : GenOutcome :=
  let cid := match conversationId with
    | none => freshId
    | some c => c
  let store1 := match conversationId with
    | none => setStore store freshId []
    | some _ => store
  let systemPrompt := buildSystemPrompt context
  let messages := getConversationMessages store1 cid systemPrompt userMessage
  let store2 := updateStoreHistory store1 cid userMessage aiMessage
  ⟨messages, cid, aiMessage, store2⟩

theorem lookupStore_setStore_self (store : List (String × List Msg))
    (cid : String) (hist : List Msg) :
    lookupStore (setStore store cid hist) cid = some hist := by
  induction store with
  | nil => simp [setStore, lookupStore]
  | cons p ps ih =>
    by_cases h : p.1 == cid
    · simp [setStore, lookupStore, h]
    · simp only [setStore, lookupStore, h, if_false, Bool.false_eq_true, if_neg]
      exact ih

/-- C8: the message list sent to the completion API is exactly the system
prompt, then the stored history of the conversation oldest first (empty
for a fresh or unknown id), then the current user message; when no
conversation id is supplied, the freshly generated id is used with an
empty history and is returned in the result. -/
theorem generate_response_message_sequence (store : List (String × List Msg))
    (freshId userMessage context aiMessage : String)
    (conversationId : Option String) :
    (generateResponse store freshId userMessage context conversationId
        aiMessage).messagesSent =
      (⟨"system", buildSystemPrompt context⟩ : Msg) ::
        ((match conversationId with
          | none => []
          | some c => (lookupStore store c).getD []) ++ [⟨"user", userMessage⟩]) ∧
    (conversationId = none →
      (generateResponse store freshId userMessage context conversationId
          aiMessage).conversationId = freshId ∧
      lookupStore (setStore store freshId []) freshId = some []) := by
  constructor
  · cases conversationId with
    | none =>
      simp [generateResponse, getConversationMessages, lookupStore_setStore_self]
    | some c => simp [generateResponse, getConversationMessages]
  · intro h
    subst h
    exact ⟨rfl, lookupStore_setStore_self store freshId []⟩

/-- Witness for C8: a call without a conversation id on the empty store
sends exactly the system prompt and the user message, and returns the
generated id. -/
theorem generate_response_message_sequence_witness :
    (generateResponse [] "fresh-id" "hi" "" none "hello").messagesSent =
      [⟨"system", buildSystemPrompt ""⟩, ⟨"user", "hi"⟩] ∧
    (generateResponse [] "fresh-id" "hi" "" none "hello").conversationId = "fresh-id" := by
  have h := generate_response_message_sequence [] "fresh-id" "hi" "" "hello" none
  exact ⟨by simpa using h.1, (h.2 rfl).1⟩

/-- C10: calling `generate_response` with a conversation id that was never
seen does not fail: the unknown id is treated as empty history (only the
system prompt and the current user message are sent), and afterwards the
store maps that id to exactly the two messages user message then
assistant reply. -/
theorem generate_response_unknown_id (store : List (String × List Msg))
    (cid userMessage context aiMessage freshId : String)
    (h : lookupStore store cid = none) :
    (generateResponse store freshId userMessage context (some cid)
        aiMessage).messagesSent =
      [⟨"system", buildSystemPrompt context⟩, ⟨"user", userMessage⟩] ∧
    lookupStore (generateResponse store freshId userMessage context (some cid)
        aiMessage).store cid =
      some [⟨"user", userMessage⟩, ⟨"assistant", aiMessage⟩] := by
  constructor
  · simp [generateResponse, getConversationMessages, h]
  · have hupd : updateConversationHistory [] userMessage aiMessage =
        [⟨"user", userMessage⟩, ⟨"assistant", aiMessage⟩] := rfl
    simp [generateResponse, updateStoreHistory, h, hupd, lookupStore_setStore_self]

/-- Witness for C10 at a concrete unknown id on the empty store. -/
theorem generate_response_unknown_id_witness :
    (generateResponse [] "f" "ping" "" (some "conv-9") "pong").messagesSent =
      [⟨"system", buildSystemPrompt ""⟩, ⟨"user", "ping"⟩] ∧
    lookupStore (generateResponse [] "f" "ping" "" (some "conv-9") "pong").store
        "conv-9" =
      some [⟨"user", "ping"⟩, ⟨"assistant", "pong"⟩] :=
  generate_response_unknown_id [] "conv-9" "ping" "" "pong" "f" rfl

/-- The value `natural_language_query` hands to the `/chat` handler: the
intent tag, the result records (each the rendered form of a dictionary
coming from the external database) and the summary line. -/
structure NLQResponse where
  intent : String
  results : List String
  summary : String
deriving DecidableEq, Repr

/-- One element of the `/chat` sources list (`app.py` line 97): the tag
"graph_query" and the whole graph query response. -/
structure ChatSource where
  type : String
  data : NLQResponse
deriving DecidableEq, Repr

/-- The graph context block the `/chat` handler builds (`app.py` lines
90-95).  The Python source writes `\\n` inside ordinary f-strings, so the
separator is the two characters backslash and n, not a newline; at most
the first 5 results are rendered, numbered from 1. -/
def renderChatContext (g : NLQResponse) : String :=
  let hdr := "Graph Query Results (" ++ g.intent ++ "):\\n" ++ g.summary ++ "\\n\\n"
  let numbered := (g.results.take 5).enum.map fun p =>
    toString (p.1 + 1) ++ ". " ++ p.2 ++ "\\n"
  hdr ++ String.join numbered

/-- The context string and sources list the `/chat` handler computes
before calling the LLM client (`app.py` lines 80-97): both stay empty when
`use_rag` is false or the graph query returned no results. -/
def chatContextSources (useRag : Bool) (g : NLQResponse) :
    String × List ChatSource :=
  if useRag then
    if g.results.isEmpty then ("", [])
    else (renderChatContext g, [⟨"graph_query", g⟩])
  else ("", [])

/-- The body of a successful `/chat` response (`app.py` lines 44-47 and
107-111): the sources field is null when the sources list is empty
(Python `sources if sources else None`). -/
structure ChatResponse where
  response : String
  conversation_id : String
  sources : Option (List ChatSource)
deriving Repr

/-- The `/chat` endpoint (`app.py` lines 66-115) composed with the LLM
client: build context and sources from the graph query outcome, generate
the completion, and return the reply, the conversation id and the
optional sources. -/
def chatEndpoint (useRag : Bool) (g : NLQResponse) (message : String)
    (conversationId : Option String) (store : List (String × List Msg))
    (freshId aiMessage : String) : ChatResponse × List (String × List Msg) :=
  let cs := chatContextSources useRag g
  let gen := generateResponse store freshId message cs.1 conversationId aiMessage
  (⟨gen.response, gen.conversationId,
    if cs.2.isEmpty then none else some cs.2⟩, gen.store)

/-- C6: with `use_rag` false, or with an empty graph result list, the LLM
client is called with empty context and the response's sources field is
null; with `use_rag` true and non-empty results, the context passed to
the LLM is the rendered graph block and the sources list carries the
graph query data; and the rendered block depends only on the intent, the
summary and the first 5 results. -/
theorem chat_endpoint_rag_composition (useRag : Bool) (g : NLQResponse)
    (message : String) (conversationId : Option String)
    (store : List (String × List Msg)) (freshId aiMessage : String) :
    (useRag = false →
      chatContextSources useRag g = ("", []) ∧
      (chatEndpoint useRag g message conversationId store freshId
        aiMessage).1.sources = none) ∧
    (g.results = [] →
      chatContextSources useRag g = ("", []) ∧
      (chatEndpoint useRag g message conversationId store freshId
        aiMessage).1.sources = none) ∧
    (useRag = true → g.results ≠ [] →
      chatContextSources useRag g = (renderChatContext g, [⟨"graph_query", g⟩]) ∧
      (chatEndpoint useRag g message conversationId store freshId
        aiMessage).1.sources = some [⟨"graph_query", g⟩]) ∧
    (∀ g2 : NLQResponse, g.intent = g2.intent → g.summary = g2.summary →
      g.results.take 5 = g2.results.take 5 →
      renderChatContext g = renderChatContext g2) := by
  refine ⟨?_, ?_, ?_, ?_⟩
  · intro h
    subst h
    exact ⟨rfl, rfl⟩
  · intro h
    cases useRag with
    | false => exact ⟨rfl, rfl⟩
    | true =>
      constructor
      · simp [chatContextSources, h]
      · simp [chatEndpoint, chatContextSources, h]
  · intro h1 h2
    subst h1
    constructor
    · simp [chatContextSources, List.isEmpty_iff, h2]
    · simp [chatEndpoint, chatContextSources, List.isEmpty_iff, h2]
  · intro g2 hi hs hr
    simp only [renderChatContext, hi, hs, hr]

/-- Witness for C6: with `use_rag` false the context and sources stay
empty, and with `use_rag` true on a one-result graph response the context
is the rendered block and the source carries the graph data. -/
theorem chat_endpoint_rag_composition_witness :
    chatContextSources false ⟨"list_servers", ["r1"], "Found 1 servers"⟩ = ("", []) ∧
    (chatEndpoint false ⟨"list_servers", ["r1"], "Found 1 servers"⟩ "m" none []
      "f" "a").1.sources = none ∧
    chatContextSources true ⟨"list_servers", ["r1"], "Found 1 servers"⟩ =
      (renderChatContext ⟨"list_servers", ["r1"], "Found 1 servers"⟩,
        [⟨"graph_query", ⟨"list_servers", ["r1"], "Found 1 servers"⟩⟩]) := by
  have hf := (chat_endpoint_rag_composition false
    ⟨"list_servers", ["r1"], "Found 1 servers"⟩ "m" none [] "f" "a").1 rfl
  have ht := (chat_endpoint_rag_composition true
    ⟨"list_servers", ["r1"], "Found 1 servers"⟩ "m" none [] "f"
    "a").2.2.1 rfl (by decide)
  exact ⟨hf.1, hf.2, ht.1⟩

/-- `Neo4jClient.query_server_details` (`neo4j_client.py` lines 74-93)
applied to the rows the Cypher query returned: the first row, or the
empty dict (empty record) when the server id matched nothing. -/
def queryServerDetails (rows : List (List (String × String))) :
    List (String × String) :=
  rows.headD []

/-- An HTTP reply of the `/graph/server/{server_id}` endpoint: a success
body `{status, server}` or an error status with detail. -/
inductive HTTPReply where
  | ok (status : String) (server : List (String × String))
  | httpError (statusCode : Nat) (detail : String)
deriving DecidableEq, Repr

/-- The `/graph/server/{server_id}` handler (`app.py` lines 165-181).
`Except.error` models a raised database exception, turned into HTTP 500
by the generic handler; the HTTPException 404 raised for a falsy details
dict is re-raised unchanged by the `except HTTPException` clause, so it
never becomes a 500. -/
def getServerDetails (serverId : String)
    (dbOutcome : Except String (List (List (String × String)))) : HTTPReply :=
  match dbOutcome with
  | .error e => .httpError 500 e
  | .ok rows =>
    let details := queryServerDetails rows
    if details.isEmpty then
      .httpError 404 ("Server " ++ serverId ++ " not found")
    else
      .ok "success" details

/-- C7: when the details query yields no record the endpoint answers HTTP
404 with the not-found detail (neither a 500 nor a success body); when
the first row is a non-empty record the endpoint answers success with the
details under the server key. -/
theorem get_server_details_status (serverId : String)
    (rows : List (List (String × String))) :
    (rows = [] →
      getServerDetails serverId (.ok rows) =
        .httpError 404 ("Server " ++ serverId ++ " not found")) ∧
    (∀ r rest, rows = r :: rest → r ≠ [] →
      getServerDetails serverId (.ok rows) = .ok "success" r) := by
  constructor
  · intro h
    subst h
    rfl
  · intro r rest h hr
    subst h
    simp [getServerDetails, queryServerDetails, List.isEmpty_iff, hr]

/-- Witness for C7: a missing server id yields the 404 reply and an
existing one yields the success body. -/
theorem get_server_details_status_witness :
    getServerDetails "server99" (.ok []) =
      .httpError 404 ("Server " ++ "server99" ++ " not found") ∧
    getServerDetails "server1" (.ok [[("server_id", "server1")]]) =
      .ok "success" [("server_id", "server1")] :=
  ⟨(get_server_details_status "server99" []).1 rfl,
   (get_server_details_status "server1" [[("server_id", "server1")]]).2
     [("server_id", "server1")] [] rfl (by decide)⟩

/-- The graph database state as the CSV loader manipulates it: labelled
nodes keyed by (label, id) carrying a name property, and relationships
keyed by (type, start node key, end node key).  Uniqueness constraints on
ids are enforced by the loader's MERGE-by-id pattern itself. -/
structure Graph where
  nodes : List ((String × String) × String)
  rels : List (String × (String × String) × (String × String))
deriving DecidableEq, Repr

/-- The keys of the existing nodes. -/
def nodeKeys (g : Graph) : List (String × String) :=
  g.nodes.map Prod.fst

/-- Cypher `MERGE (n:Label {id: ...}) SET n.name = ...`
(`load_graph_data.py` node-loading queries): update the name when a node
with this label and id exists, create the node otherwise. -/
def mergeNode (label id name : String) (g : Graph) : Graph :=
  if (label, id) ∈ nodeKeys g then
    { g with nodes := g.nodes.map fun e => if e.1 = (label, id) then (e.1, name) else e }
  else
    { g with nodes := g.nodes ++ [((label, id), name)] }

/-- Cypher `MATCH (s ...) MATCH (t ...) MERGE (s)-[:TYPE]->(t)`
(`load_graph_data.py` relationship-loading queries): when both endpoints
exist, add the relationship unless it is already present; a row whose
endpoints are missing matches nothing and changes nothing. -/
def mergeRel (typ : String) (sk ek : String × String) (g : Graph) : Graph :=
  if sk ∈ nodeKeys g ∧ ek ∈ nodeKeys g then
    if (typ, sk, ek) ∈ g.rels then g
    else { g with rels := g.rels ++ [(typ, sk, ek)] }
  else g

/-- One UNWIND-ed node-loading query: merge each (label, id, name) row in
order. -/
def loadNodes (rows : List (String × String × String)) (g : Graph) : Graph :=
  rows.foldl (fun h r => mergeNode r.1 r.2.1 r.2.2 h) g

/-- One UNWIND-ed relationship-loading query: merge each
(type, start key, end key) row in order. -/
def loadRels (rows : List (String × (String × String) × (String × String)))
    (g : Graph) : Graph :=
  rows.foldl (fun h r => mergeRel r.1 r.2.1 r.2.2 h) g

/-- The parsed CSV inputs of the loader: (id, name) node rows and
(start, end) relationship rows, in file order. -/
structure CsvData where
  servers : List (String × String)
  applications : List (String × String)
  oses : List (String × String)
  runsOn : List (String × String)
  hosts : List (String × String)
  locatedIn : List (String × String)
deriving Repr

/-- All node rows `load_all` merges, in execution order: servers,
applications, operating systems, then the location ids collected from the
end column of located_in.csv (`load_locations` builds a Python set of
them, so duplicates collapse; the model keeps first occurrences). -/
def nodeRows (csv : CsvData) : List (String × String × String) :=
  csv.servers.map (fun r => ("Server", r)) ++
    csv.applications.map (fun r => ("Application", r)) ++
    csv.oses.map (fun r => ("OS", r)) ++
    (csv.locatedIn.map Prod.snd).eraseDups.map (fun i => ("Location", i, i))

/-- All relationship rows `load_all` merges, in execution order: RUNS_ON,
HOSTS, then LOCATED_IN. -/
def relRows (csv : CsvData) :
    List (String × (String × String) × (String × String)) :=
  csv.runsOn.map (fun r => ("RUNS_ON", ("Server", r.1), ("OS", r.2))) ++
    csv.hosts.map (fun r => ("HOSTS", ("Server", r.1), ("Application", r.2))) ++
    csv.locatedIn.map (fun r => ("LOCATED_IN", ("Server", r.1), ("Location", r.2)))

/-- `GraphDataLoader.load_all` (`load_graph_data.py` lines 166-190):
optionally clear the database, create uniqueness constraints
(`CREATE CONSTRAINT IF NOT EXISTS`, no data change), then load all node
rows and all relationship rows in order. -/
def loadAll (csv : CsvData) (clearFirst : Bool) (g : Graph) : Graph :=
  loadRels (relRows csv)
    (loadNodes (nodeRows csv) (if clearFirst then Graph.mk [] [] else g))

theorem mergeNode_rels (label id name : String) (g : Graph) :
    (mergeNode label id name g).rels = g.rels := by
  unfold mergeNode
  split <;> rfl

theorem nodeKeys_mergeNode_of_mem {label id : String} {g : Graph}
    (h : (label, id) ∈ nodeKeys g) (name : String) :
    nodeKeys (mergeNode label id name g) = nodeKeys g := by
  unfold mergeNode
  rw [if_pos h]
  simp only [nodeKeys, List.map_map]
  refine List.map_congr_left fun e _ => ?_
  by_cases he : e.1 = (label, id) <;> simp [he]

theorem mem_nodeKeys_mergeNode_of_mem {k : String × String} {g : Graph}
    (label id name : String) (h : k ∈ nodeKeys g) :
    k ∈ nodeKeys (mergeNode label id name g) := by
  by_cases hmem : (label, id) ∈ nodeKeys g
  · rw [nodeKeys_mergeNode_of_mem hmem name]
    exact h
  · unfold mergeNode
    rw [if_neg hmem]
    simp only [nodeKeys, List.map_append]
    exact List.mem_append_left _ h

theorem mem_nodeKeys_mergeNode_self (label id name : String) (g : Graph) :
    (label, id) ∈ nodeKeys (mergeNode label id name g) := by
  by_cases h : (label, id) ∈ nodeKeys g
  · rw [nodeKeys_mergeNode_of_mem h name]
    exact h
  · unfold mergeNode
    rw [if_neg h]
    simp [nodeKeys]

theorem loadNodes_rels (rows : List (String × String × String)) (g : Graph) :
    (loadNodes rows g).rels = g.rels := by
  induction rows generalizing g with
  | nil => rfl
  | cons r rs ih => rw [loadNodes, List.foldl_cons, ← loadNodes, ih, mergeNode_rels]

theorem mem_nodeKeys_loadNodes_of_mem {k : String × String}
    (rows : List (String × String × String)) {g : Graph} (h : k ∈ nodeKeys g) :
    k ∈ nodeKeys (loadNodes rows g) := by
  induction rows generalizing g with
  | nil => exact h
  | cons r rs ih =>
    rw [loadNodes, List.foldl_cons, ← loadNodes]
    exact ih (mem_nodeKeys_mergeNode_of_mem r.1 r.2.1 r.2.2 h)

theorem mem_nodeKeys_loadNodes_self {r : String × String × String}
    (rows : List (String × String × String)) (hr : r ∈ rows) (g : Graph) :
    (r.1, r.2.1) ∈ nodeKeys (loadNodes rows g) := by
  induction rows generalizing g with
  | nil => cases hr
  | cons p ps ih =>
    rw [loadNodes, List.foldl_cons, ← loadNodes]
    rcases List.mem_cons.1 hr with rfl | hmem
    · exact mem_nodeKeys_loadNodes_of_mem ps (mem_nodeKeys_mergeNode_self r.1 r.2.1 r.2.2 g)
    · exact ih hmem _

theorem nodeKeys_loadNodes_of_forall_mem {g : Graph}
    (rows : List (String × String × String))
    (h : ∀ r ∈ rows, (r.1, r.2.1) ∈ nodeKeys g) :
    nodeKeys (loadNodes rows g) = nodeKeys g := by
  induction rows generalizing g with
  | nil => rfl
  | cons p ps ih =>
    rw [loadNodes, List.foldl_cons, ← loadNodes]
    have hp : (p.1, p.2.1) ∈ nodeKeys g := h p (List.mem_cons_self p ps)
    have hkeys : nodeKeys (mergeNode p.1 p.2.1 p.2.2 g) = nodeKeys g :=
      nodeKeys_mergeNode_of_mem hp p.2.2
    rw [ih fun r hr => hkeys ▸ h r (List.mem_cons_of_mem p hr), hkeys]

theorem mergeRel_nodes (typ : String) (sk ek : String × String) (g : Graph) :
    (mergeRel typ sk ek g).nodes = g.nodes := by
  unfold mergeRel
  split
  · split <;> rfl
  · rfl

theorem nodeKeys_mergeRel (typ : String) (sk ek : String × String) (g : Graph) :
    nodeKeys (mergeRel typ sk ek g) = nodeKeys g := by
  simp [nodeKeys, mergeRel_nodes]

theorem mem_rels_mergeRel_of_mem {r : String × (String × String) × (String × String)}
    {g : Graph} (typ : String) (sk ek : String × String) (h : r ∈ g.rels) :
    r ∈ (mergeRel typ sk ek g).rels := by
  unfold mergeRel
  split
  · split
    · exact h
    · exact List.mem_append_left _ h
  · exact h

theorem mem_rels_mergeRel_self {g : Graph} (typ : String) {sk ek : String × String}
    (hs : sk ∈ nodeKeys g) (he : ek ∈ nodeKeys g) :
    (typ, sk, ek) ∈ (mergeRel typ sk ek g).rels := by
  unfold mergeRel
  rw [if_pos ⟨hs, he⟩]
  split
  · next hmem => exact hmem
  · simp

theorem mergeRel_eq_self {g : Graph} {typ : String} {sk ek : String × String}
    (h : sk ∈ nodeKeys g → ek ∈ nodeKeys g → (typ, sk, ek) ∈ g.rels) :
    mergeRel typ sk ek g = g := by
  unfold mergeRel
  split
  · next hn => rw [if_pos (h hn.1 hn.2)]
  · rfl

theorem loadRels_nodes (rows : List (String × (String × String) × (String × String)))
    (g : Graph) : (loadRels rows g).nodes = g.nodes := by
  induction rows generalizing g with
  | nil => rfl
  | cons r rs ih => rw [loadRels, List.foldl_cons, ← loadRels, ih, mergeRel_nodes]

theorem nodeKeys_loadRels (rows : List (String × (String × String) × (String × String)))
    (g : Graph) : nodeKeys (loadRels rows g) = nodeKeys g := by
  simp [nodeKeys, loadRels_nodes]

theorem mem_rels_loadRels_of_mem {r : String × (String × String) × (String × String)}
    (rows : List (String × (String × String) × (String × String))) {g : Graph}
    (h : r ∈ g.rels) : r ∈ (loadRels rows g).rels := by
  induction rows generalizing g with
  | nil => exact h
  | cons p ps ih =>
    rw [loadRels, List.foldl_cons, ← loadRels]
    exact ih (mem_rels_mergeRel_of_mem p.1 p.2.1 p.2.2 h)

theorem mem_rels_loadRels_self {r : String × (String × String) × (String × String)}
    (rows : List (String × (String × String) × (String × String))) (hr : r ∈ rows)
    {g : Graph} (hs : r.2.1 ∈ nodeKeys g) (he : r.2.2 ∈ nodeKeys g) :
    r ∈ (loadRels rows g).rels := by
  induction rows generalizing g with
  | nil => cases hr
  | cons p ps ih =>
    rw [loadRels, List.foldl_cons, ← loadRels]
    rcases List.mem_cons.1 hr with rfl | hmem
    · exact mem_rels_loadRels_of_mem ps (mem_rels_mergeRel_self r.1 hs he)
    · exact ih hmem (by rw [nodeKeys_mergeRel]; exact hs)
        (by rw [nodeKeys_mergeRel]; exact he)

theorem loadRels_eq_self {g : Graph}
    (rows : List (String × (String × String) × (String × String)))
    (h : ∀ r ∈ rows, r.2.1 ∈ nodeKeys g → r.2.2 ∈ nodeKeys g → r ∈ g.rels) :
    loadRels rows g = g := by
  induction rows with
  | nil => rfl
  | cons p ps ih =>
    rw [loadRels, List.foldl_cons, ← loadRels]
    rw [mergeRel_eq_self (h p (List.mem_cons_self p ps))]
    exact ih fun r hr => h r (List.mem_cons_of_mem p hr)

/-- C9: the CSV loader is idempotent: running `load_all` a second time on
the same files without clearing leaves both the node count and the
relationship count exactly as they were after the first run (the second
run's node merges only update names of existing keys, and every
relationship row either already produced its edge or still lacks an
endpoint). -/
theorem load_all_idempotent (csv : CsvData) (clearFirst : Bool) (g : Graph) :
    (loadAll csv false (loadAll csv clearFirst g)).nodes.length =
      (loadAll csv clearFirst g).nodes.length ∧
    (loadAll csv false (loadAll csv clearFirst g)).rels.length =
      (loadAll csv clearFirst g).rels.length := by
  unfold loadAll
  set g0 := if clearFirst then Graph.mk [] [] else g with hg0
  set gN := loadNodes (nodeRows csv) g0 with hgN
  set g1 := loadRels (relRows csv) gN with hg1
  have hif : (if false then Graph.mk [] [] else g1) = g1 := rfl
  rw [hif]
  have hkeys1 : nodeKeys g1 = nodeKeys gN := nodeKeys_loadRels _ _
  have hA1 : ∀ r ∈ nodeRows csv, (r.1, r.2.1) ∈ nodeKeys g1 := by
    intro r hr
    rw [hkeys1]
    exact mem_nodeKeys_loadNodes_self _ hr _
  have hN2keys : nodeKeys (loadNodes (nodeRows csv) g1) = nodeKeys g1 :=
    nodeKeys_loadNodes_of_forall_mem _ hA1
  have hN2rels : (loadNodes (nodeRows csv) g1).rels = g1.rels :=
    loadNodes_rels _ _
  have hfinal : loadRels (relRows csv) (loadNodes (nodeRows csv) g1) =
      loadNodes (nodeRows csv) g1 := by
    refine loadRels_eq_self _ fun r hr hs he => ?_
    rw [hN2keys, hkeys1] at hs he
    rw [hN2rels, hg1]
    exact mem_rels_loadRels_self _ hr hs he
  rw [hfinal]
  constructor
  · have h1 : (loadNodes (nodeRows csv) g1).nodes.length =
        (nodeKeys (loadNodes (nodeRows csv) g1)).length :=
      (List.length_map _ _).symm
    rw [h1, hN2keys]
    exact List.length_map _ _
  · rw [hN2rels]

end GraphAssist
